import Mathlib

/-!
Verification of the meshcom-listener packet pipeline against its
natural-language specification.

Shallow embedding of the Python sources:
  * `listener.py`   — `_handle_packet` (decode, store filter, forwarding loop)
  * `forwarder.py`  — `escape_markdown_v2`, `TelegramForwarder._prepare_render_context`,
                      `TelegramForwarder._render_template`, `TelegramForwarder.send_text`

Modelling conventions:
  * Parsed JSON values are the inductive `Json`; `Json.num q` carries the
    exact value of the parsed Python number — an integer, or the exact
    (dyadic rational) value of the IEEE binary64 float that `json.loads`
    produced.  The altitude pipeline `float()` → `* 0.3048` → `round(x, 1)`
    → `str()` is modelled bit-exactly on the binary64 type `Dbl`
    (round-to-nearest-even conversion and multiplication, CPython's
    correctly rounded decimal rounding, and shortest-round-trip repr).
  * A Python `dict` produced by `json.loads` is a key-ordered association
    list with distinct keys; `dict.get` is association-list lookup.
    `message_dict.get(k)` yields Python `None` both for a missing key and
    for an explicit JSON `null`, so both are collapsed to `Json.null`.
  * Python `==` (`pyEq`) is structural on scalars plus the bool/number
    coercion (`True == 1`); equality of nested containers is modelled
    structurally (the pipeline only ever compares scalar field values).
  * Side effects of `_handle_packet` (log calls at their levels, the
    `db_handler.save_message` call, the `forwarder.send_message` call) are
    reified as an `Event` trace; an uncaught Python exception inside the
    per-packet `try` corresponds to the `logErrorUnexpected` event emitted
    by the generic `except Exception` handler, after which processing of
    the packet stops.
-/

/-- JSON values as decoded by `json.loads`. -/
inductive Json where
  | null : Json
  | bool (b : Bool) : Json
  | num (q : ℚ) : Json
  | str (s : String) : Json
  | arr (xs : List Json) : Json
  | obj (fields : List (String × Json)) : Json

mutual

/-- Structural equality of JSON values (used for the scalar and container
cases of Python `==`). -/
def jsonBEq : Json → Json → Bool
  | .null, .null => true
  | .bool a, .bool b => a == b
  | .num a, .num b => a == b
  | .str a, .str b => a == b
  | .arr a, .arr b => jsonBEqList a b
  | .obj a, .obj b => jsonBEqFields a b
  | _, _ => false

/-- Structural equality of JSON value lists. -/
def jsonBEqList : List Json → List Json → Bool
  | [], [] => true
  | x :: xs, y :: ys => jsonBEq x y && jsonBEqList xs ys
  | _, _ => false

/-- Structural equality of JSON object field lists. -/
def jsonBEqFields : List (String × Json) → List (String × Json) → Bool
  | [], [] => true
  | (k, v) :: xs, (k', v') :: ys => k == k' && jsonBEq v v' && jsonBEqFields xs ys
  | _, _ => false

end

/-- Python truthiness (`bool(x)`) of a decoded JSON value:
`None`, `False`, `0`, `""`, `[]` and `{}` are falsy. -/
def truthy : Json → Bool
  | .null => false
  | .bool b => b
  | .num q => !(q == 0)
  | .str s => !(s == "")
  | .arr xs => !xs.isEmpty
  | .obj fs => !fs.isEmpty

/-- Python `==` on decoded JSON values: scalar comparison with the
bool/number coercion (`True == 1`, `False == 0`); `None` equals only
`None`; mixed scalar types are unequal.  Equality of nested containers is
modelled structurally — the pipeline only compares scalar field values
(type tags, destinations, the altitude sentinels). -/
def pyEq : Json → Json → Bool
  | .bool a, .num q => (if a then (1 : ℚ) else 0) == q
  | .num q, .bool a => q == (if a then (1 : ℚ) else 0)
  | a, b => jsonBEq a b

/-- A parsed message object: the field list of the decoded JSON object. -/
abbrev Msg := List (String × Json)

/-- `message_dict.get(k)` before the `None` collapse: association-list
lookup. -/
def mfind (m : Msg) (k : String) : Option Json :=
  List.lookup k m

/-- `message_dict.get(k)` as a Python value: a missing key yields Python
`None`, which coincides with the decoding of JSON `null`. -/
def dget (m : Msg) (k : String) : Json :=
  (mfind m k).getD .null

/-- `message_dict.get(key, default) or default` — the `safe_get` lambda of
`_prepare_render_context`: the default replaces both a missing key and a
falsy value. -/
def safeGet (m : Msg) (k : String) (d : Json) : Json :=
  match mfind m k with
  | none => d
  | some v => if truthy v then v else d

/-- The reserved characters of `escape_chars = r'_*[]()~`>#+=-|{}.!'` in
`forwarder.py`, in source order. -/
def escapeChars : List Char :=
  ['_', '*', '[', ']', '(', ')', '~', '`', '>', '#', '+', '=', '-', '|',
   '\x7b', '\x7d', '.', '!']

/-- `text.replace(old_char, new)` for a single-character pattern, on the
character-list view of the string: every occurrence of the character is
replaced by the two-character escape sequence. -/
def replaceEsc (c : Char) (l : List Char) : List Char :=
  l.flatMap fun x => if x = c then ['\\', c] else [x]

/-- `text.replace('\\', '\\\\')` — the first line of `escape_markdown_v2`. -/
def backslashEsc (l : List Char) : List Char :=
  l.flatMap fun x => if x = '\\' then ['\\', '\\'] else [x]

/-- `escape_markdown_v2` on the character-list view: escape backslashes
first, then run `text.replace(char, '\\' + char)` for each reserved
character in source order. -/
def escapeMD (l : List Char) : List Char :=
  escapeChars.foldl (fun acc c => replaceEsc c acc) (backslashEsc l)

/-- `escape_markdown_v2(text)` for a string argument (the `None` branch of
the Python function returns `''` and is never reached from
`_prepare_render_context`, whose `safe_get` never yields `None`). -/
def escapeMarkdownV2 (s : String) : String :=
  String.mk (escapeMD s.data)

/-- The whitespace characters stripped by Python `str.strip()` (the ASCII
ones; exotic unicode space characters are not modelled). -/
def isPyWs (c : Char) : Bool :=
  c = ' ' || c = '\t' || c = '\n' || c = '\r' || c = '\x0b' || c = '\x0c'

/-- `s.split(',')[0]` on the character-list view: the prefix before the
first comma (the whole string when no comma occurs). -/
def takeUntilComma : List Char → List Char
  | [] => []
  | c :: r => if c = ',' then [] else c :: takeUntilComma r

/-- Python `str.strip()`: drop whitespace from both ends. -/
def pyStrip (l : List Char) : List Char :=
  ((l.dropWhile isPyWs).reverse.dropWhile isPyWs).reverse

/-- `src.split(',')[0].strip()` — comma-suffix stripping of a source ID. -/
def cleanSrc (s : String) : String :=
  String.mk (pyStrip (takeUntilComma s.data))

/-- A forwarding rule: a JSON object with optional `type` and `dst`
predicates.  `none` models the key being absent from the rule dict
(`'type' not in rule`); `some v` models the key being present with
value `v`. -/
structure Rule where
  rtype : Option Json
  rdst : Option Json

/-- `type_match = ('type' not in rule) or (rule.get('type') == msg_type)`
from `_handle_packet`. -/
def typeMatch (r : Rule) (msgType : Json) : Bool :=
  match r.rtype with
  | none => true
  | some v => pyEq v msgType

/-- `dst_match = ('dst' not in rule) or (rule.get('dst') == msg_dst)`
from `_handle_packet`. -/
def dstMatch (r : Rule) (msgDst : Json) : Bool :=
  match r.rdst with
  | none => true
  | some v => pyEq v msgDst

/-- `if type_match and dst_match:` — a rule fires for a message with the
given `type` and `dst` values. -/
def ruleMatches (r : Rule) (msgType msgDst : Json) : Bool :=
  typeMatch r msgType && dstMatch r msgDst

/-- `msg_type in store_types` — Python membership test of the message's
type value in the configured list of type strings. -/
def msgTypeIn (msgType : Json) (storeTypes : List String) : Bool :=
  storeTypes.any fun s => pyEq msgType (.str s)

/-- The observable per-packet effects of `_handle_packet`, in order:
log calls (constructor names carry the level and which log site fired),
the `db_handler.save_message` call with its arguments, and the
`forwarder.send_message` call. -/
inductive Event where
  /-- `log.warning` — UTF-8 decoding failed. -/
  | logWarnDecode : Event
  /-- `log.debug` — hex dump of an undecodable packet. -/
  | logDebugHex : Event
  /-- `log.warning` — JSON parsing failed (logs the parse error, not the text). -/
  | logWarnJsonParse : Event
  /-- `log.debug` — the raw text of a packet that failed JSON parsing. -/
  | logDebugRawText (text : String) : Event
  /-- `log.info` — "UDP Nachricht empfangen". -/
  | logReceived : Event
  /-- `log.debug` — message type not in `store_types`, not stored. -/
  | logDebugNotStored : Event
  /-- `db_handler.save_message(msg_id, source, dest, msg_type, ..., raw)`. -/
  | store (msgId source dest msgType : Json) (raw : String) : Event
  /-- `log.debug` — "Prüfe Weiterleitungsregel" for one rule. -/
  | logDebugRuleCheck (r : Rule) : Event
  /-- `log.info` — a forwarding rule matched. -/
  | logInfoRuleMatch (r : Rule) : Event
  /-- `forwarder.send_message(message_dict)`. -/
  | forward (m : Msg) : Event
  /-- `log.debug` — no forwarding rule matched (`else` of the `for` loop). -/
  | logDebugNoRule : Event
  /-- `log.error` in the generic `except Exception` handler: an uncaught
  exception (e.g. `AttributeError`) aborted processing of this packet. -/
  | logErrorUnexpected : Event

/-- Events that are `db_handler.save_message` invocations. -/
def isStoreEvent : Event → Bool
  | .store _ _ _ _ _ => true
  | _ => false

/-- Events that are `forwarder.send_message` invocations. -/
def isForwardEvent : Event → Bool
  | .forward _ => true
  | _ => false

/-- Events emitted through `log.warning`. -/
def isWarningEvent : Event → Bool
  | .logWarnDecode => true
  | .logWarnJsonParse => true
  | _ => false

/-- The `for i, rule in enumerate(forwarding_rules):` loop of
`_handle_packet`: each iteration logs the rule check; on the first rule
whose conditions both hold it logs the match, calls
`forwarder.send_message` and `break`s; if the loop is exhausted, the
`for`-`else` logs that no rule matched. -/
def forwardLoop (msgType msgDst : Json) (m : Msg) : List Rule → List Event
  | [] => [.logDebugNoRule]
  | r :: rest =>
      .logDebugRuleCheck r ::
        (if ruleMatches r msgType msgDst then [.logInfoRuleMatch r, .forward m]
         else forwardLoop msgType msgDst m rest)

/-- `dest = message_dict.get('dst'); if not dest: dest = None` — the dest
value passed to `save_message`. -/
def destOf (m : Msg) : Json :=
  let d := dget m "dst"
  if truthy d then d else .null

/-- `cleaned_source = None; if source_raw: cleaned_source =
source_raw.split(',')[0].strip()` — defined for messages whose truthy
`src` is a string (a truthy non-string raises `AttributeError` in the
source and is handled separately in `handleObj`). -/
def cleanedSrcOf (m : Msg) : Json :=
  if truthy (dget m "src") then
    match dget m "src" with
    | .str s => .str (cleanSrc s)
    | _ => .null
  else .null

/-- One received packet, after the outcome of `data.decode('utf-8')` and
`json.loads` is fixed: either the bytes are not UTF-8, or the text is not
valid JSON, or it parses to the JSON value `v` (`text` is the decoded
`message_str`). -/
inductive Packet where
  | notUtf8 : Packet
  | notJson (text : String) : Packet
  | jsonVal (text : String) (v : Json) : Packet

/-- Steps 3–6 of `_handle_packet` for a packet that parsed to a JSON
object with field list `m`:
log the message; if the type is in `store_types`, extract the fields and
call `save_message` (where `src.split` on a truthy non-string raises
`AttributeError`, caught by the generic handler, aborting the rest of the
packet's processing); otherwise log that it is not stored; then, if a
forwarder is active and rules exist, run the forwarding loop. -/
def handleObj (text : String) (m : Msg) (hasForwarder : Bool)
    (storeTypes : List String) (rules : List Rule) : List Event :=
  let msgType := dget m "type"
  let fwd : List Event :=
    if hasForwarder && !rules.isEmpty then
      forwardLoop msgType (dget m "dst") m rules
    else []
  if msgTypeIn msgType storeTypes then
    if truthy (dget m "src") then
      match dget m "src" with
      | .str _ =>
          .logReceived ::
            .store (dget m "msg_id") (cleanedSrcOf m) (destOf m) msgType text :: fwd
      | _ => [.logReceived, .logErrorUnexpected]
    else
      .logReceived ::
        .store (dget m "msg_id") (cleanedSrcOf m) (destOf m) msgType text :: fwd
  else
    .logReceived :: .logDebugNotStored :: fwd

/-- `_handle_packet`: UTF-8 decode failure and JSON parse failure are
caught by their dedicated handlers; a JSON value that is not an object
makes `message_dict.get('type')` raise `AttributeError` — but only after
the `log.info` of step 3, since `json.dumps` succeeds on any value —
which the generic `except Exception` handler turns into an error log. -/
def handlePacket (p : Packet) (hasForwarder : Bool)
    (storeTypes : List String) (rules : List Rule) : List Event :=
  match p with
  | .notUtf8 => [.logWarnDecode, .logDebugHex]
  | .notJson text => [.logWarnJsonParse, .logDebugRawText text]
  | .jsonVal text v =>
      match v with
      | .obj fields => handleObj text fields hasForwarder storeTypes rules
      | _ => [.logReceived, .logErrorUnexpected]

/-- The receive loop of `start_udp_listener`: every per-packet error is
caught inside `_handle_packet`'s `try`, so the loop always continues with
the next packet; the traces concatenate. -/
def runLoop (ps : List Packet) (hasForwarder : Bool)
    (storeTypes : List String) (rules : List Rule) : List Event :=
  ps.flatMap fun p => handlePacket p hasForwarder storeTypes rules

/-- Exact decimal rendering of a rational, modelling Python `str()` of the
numbers that occur in messages: integers print without a decimal point,
terminating decimal fractions print exactly (matching `repr` of a double
for the short literals that appear on the wire); a non-terminating
fraction (unreachable from decoded JSON literals) falls back to a
fraction notation. -/
def ratToDecimalStr (q : ℚ) : String :=
  if q.den = 1 then toString q.num
  else
    match (List.range 64).find? (fun k => (q * (10 : ℚ) ^ k).den = 1) with
    | some k =>
        let n := (|q| * (10 : ℚ) ^ k).num.natAbs
        let s := toString n
        let s := if s.length ≤ k then String.mk (List.replicate (k + 1 - s.length) '0') ++ s else s
        (if q < 0 then "-" else "") ++ s.take (s.length - k) ++ "." ++ s.drop (s.length - k)
    | none => toString q.num ++ "/" ++ toString q.den

/-- One character of a JSON string literal as emitted by `json.dumps`
(with `ensure_ascii=False`; only the escapes relevant to the pipeline are
modelled). -/
def jsonEscapeChar (c : Char) : List Char :=
  if c = '"' then ['\\', '"']
  else if c = '\\' then ['\\', '\\']
  else if c = '\n' then ['\\', 'n']
  else if c = '\t' then ['\\', 't']
  else if c = '\r' then ['\\', 'r']
  else [c]

/-- A JSON string literal as emitted by `json.dumps`. -/
def jsonStrLit (s : String) : String :=
  "\"" ++ String.mk (s.data.flatMap jsonEscapeChar) ++ "\""

mutual

/-- `json.dumps(v, ensure_ascii=False, separators=(',', ':'))` — the
compact serialization used for the log line and `_raw_json_short`. -/
def jsonDumps : Json → String
  | .null => "null"
  | .bool b => if b then "true" else "false"
  | .num q => ratToDecimalStr q
  | .str s => jsonStrLit s
  | .arr xs => "[" ++ jsonDumpsArr xs ++ "]"
  | .obj fs => "\x7b" ++ jsonDumpsObj fs ++ "\x7d"

/-- Comma-joined compact serialization of array elements. -/
def jsonDumpsArr : List Json → String
  | [] => ""
  | [x] => jsonDumps x
  | x :: xs => jsonDumps x ++ "," ++ jsonDumpsArr xs

/-- Comma-joined compact serialization of object fields. -/
def jsonDumpsObj : List (String × Json) → String
  | [] => ""
  | [(k, v)] => jsonStrLit k ++ ":" ++ jsonDumps v
  | (k, v) :: fs => jsonStrLit k ++ ":" ++ jsonDumps v ++ "," ++ jsonDumpsObj fs

end

/-- `n` spaces. -/
def spacesN (n : Nat) : String := String.mk (List.replicate n ' ')

mutual

/-- `json.dumps(v, indent=1, ensure_ascii=False)` — the indented dump
embedded in the render-error fallback text. -/
def jsonDumpsInd (lvl : Nat) : Json → String
  | .arr [] => "[]"
  | .arr xs => "[\n" ++ jsonDumpsIndArr (lvl + 1) xs ++ "\n" ++ spacesN lvl ++ "]"
  | .obj [] => "\x7b\x7d"
  | .obj fs => "\x7b\n" ++ jsonDumpsIndObj (lvl + 1) fs ++ "\n" ++ spacesN lvl ++ "\x7d"
  | v => jsonDumps v

/-- Indented serialization of array elements. -/
def jsonDumpsIndArr (lvl : Nat) : List Json → String
  | [] => ""
  | [x] => spacesN lvl ++ jsonDumpsInd lvl x
  | x :: xs => spacesN lvl ++ jsonDumpsInd lvl x ++ ",\n" ++ jsonDumpsIndArr lvl xs

/-- Indented serialization of object fields. -/
def jsonDumpsIndObj (lvl : Nat) : List (String × Json) → String
  | [] => ""
  | [(k, v)] => spacesN lvl ++ jsonStrLit k ++ ": " ++ jsonDumpsInd lvl v
  | (k, v) :: fs =>
      spacesN lvl ++ jsonStrLit k ++ ": " ++ jsonDumpsInd lvl v ++ ",\n" ++
        jsonDumpsIndObj lvl fs

end

/-- Python `str()` of a decoded JSON value as inserted by
`str.format_map`: `None`/`True`/`False` print their Python names, numbers
print as decimals; `str()` of a nested container (never rendered by the
configured templates) is approximated by its compact JSON serialization. -/
def jsonToStr : Json → String
  | .null => "None"
  | .bool b => if b then "True" else "False"
  | .num q => ratToDecimalStr q
  | .str s => s
  | v => jsonDumps v

/-- Round the fraction `n / d` (with `d > 0`, not necessarily reduced)
half to even to an integer — the rounding mode used throughout IEEE-754
round-to-nearest and Python's `round`: with `f = ⌊n/d⌋` and remainder
`r = n − f·d` (so `n/d − f = r/d`), round down when `r/d < 1/2`, up when
`> 1/2`, and to the even neighbour on a tie. -/
def halfEvenOfFrac (n d : ℤ) : ℤ :=
  let f : ℤ := Int.fdiv n d
  let r : ℤ := n - f * d
  if 2 * r < d then f
  else if d < 2 * r then f + 1
  else if f % 2 = 0 then f else f + 1

/-- `halfEvenOfFrac` on natural numbers. -/
def halfEvenPos (n d : ℕ) : ℕ := (halfEvenOfFrac (n : ℤ) (d : ℤ)).toNat

/-- An IEEE-754 binary64 value — the representation of a Python float.
A finite value is `(-1)^neg · m · 2^e` in the canonical form produced by
`toDblPos`: `m = 0` (a signed zero, with `e = 0`), or `2^52 ≤ m < 2^53`
(normal), or `e = -1074` and `m < 2^52` (subnormal). -/
inductive Dbl where
  | finite (neg : Bool) (m : ℕ) (e : ℤ) : Dbl
  | inf (neg : Bool) : Dbl
  | nan : Dbl

/-- Structural equality of canonical `Dbl` values (used for the
round-trip test in the shortest-repr search). -/
def dblBEq : Dbl → Dbl → Bool
  | .finite a m e, .finite b m' e' => a == b && m == m' && e == e'
  | .inf a, .inf b => a == b
  | .nan, .nan => true
  | _, _ => false

/-- Fuel-driven integer logarithm: `ilogF base f n` counts how often `n`
can be divided by `base` before dropping below it. -/
def ilogF (base : ℕ) : ℕ → ℕ → ℕ
  | 0, _ => 0
  | f + 1, n => if n < base then 0 else ilogF base f (n / base) + 1

/-- `⌊log_base n⌋` for `n ≥ 1` (the fuel `n` always suffices). -/
def ilogB (base n : ℕ) : ℕ := ilogF base n n

/-- Does `n / d ≥ base ^ t` hold?  (Cross-multiplied so only natural
arithmetic is needed.) -/
def geScaled (base n d : ℕ) (t : ℤ) : Bool :=
  if 0 ≤ t then d * base ^ t.toNat ≤ n else d ≤ n * base ^ (-t).toNat

/-- `⌊log_base (n/d)⌋` for `n, d ≥ 1`: the digit-count estimate is off by
at most one and is fixed by a single comparison. -/
def flogB (base n d : ℕ) : ℤ :=
  let g : ℤ := (ilogB base n : ℤ) - (ilogB base d : ℤ)
  if geScaled base n d g then g else g - 1

/-- Round the positive fraction `n / d` (`n, d ≥ 1`) to the nearest
binary64, ties to even — the IEEE round-to-nearest-even conversion, with
gradual underflow to subnormals and overflow to infinity. -/
def toDblPos (n d : ℕ) : Dbl :=
  let E := flogB 2 n d
  let s := max (E - 52) (-1074)
  let m := if 0 ≤ s then halfEvenPos n (d * 2 ^ s.toNat)
           else halfEvenPos (n * 2 ^ (-s).toNat) d
  if m = 0 then .finite false 0 0
  else
    let p : ℕ × ℤ := if m = 2 ^ 53 then (2 ^ 52, s + 1) else (m, s)
    if 971 < p.2 then .inf false else .finite false p.1 p.2

/-- Impose a sign on a `Dbl` (the sign of `nan` is not observable). -/
def dblWithSign (b : Bool) : Dbl → Dbl
  | .finite _ m e => .finite b m e
  | .inf _ => .inf b
  | .nan => .nan

/-- IEEE binary64 multiplication — the `*` of `float(alt) * 0.3048`: the
correctly rounded (nearest, ties to even) product, with the usual
`nan`/`inf`/signed-zero special cases. -/
def fmul : Dbl → Dbl → Dbl
  | .nan, _ => .nan
  | _, .nan => .nan
  | .inf a, .inf b => .inf (xor a b)
  | .inf a, .finite b m _ => if m = 0 then .nan else .inf (xor a b)
  | .finite a m _, .inf b => if m = 0 then .nan else .inf (xor a b)
  | .finite a m e, .finite b m' e' =>
      let sg := xor a b
      if m = 0 || m' = 0 then .finite sg 0 0
      else
        let t := e + e'
        dblWithSign sg (if 0 ≤ t then toDblPos (m * m' * 2 ^ t.toNat) 1
                        else toDblPos (m * m') (2 ^ (-t).toNat))

/-- Python `round(x, 1)` on a float: CPython rounds the *exact* value of
the double to one decimal place (correct rounding, ties to even, via
`_Py_dg_dtoa`) and converts that decimal back to the nearest double; the
sign of a zero result follows the sign of `x`, and `±inf`/`nan` pass
through. -/
def round1D : Dbl → Dbl
  | .nan => .nan
  | .inf b => .inf b
  | .finite b m e =>
      if m = 0 then .finite b 0 0
      else
        let r10 := if 0 ≤ e then m * 10 * 2 ^ e.toNat
                   else halfEvenPos (m * 10) (2 ^ (-e).toNat)
        if r10 = 0 then .finite b 0 0
        else dblWithSign b (toDblPos r10 10)

/-- The base-10 digit characters of `n`. -/
def natDigits (n : ℕ) : List Char := Nat.toDigits 10 n

/-- Strip trailing zero digits of `D`, bumping the decimal exponent of
its last digit (fuel 20 covers the at most 18 digits produced by the
shortest-repr search). -/
def stripZerosF : ℕ → ℕ × ℤ → ℕ × ℤ
  | 0, p => p
  | f + 1, p => if p.1 % 10 = 0 && p.1 ≠ 0 then stripZerosF f (p.1 / 10, p.2 + 1) else p

/-- The correctly rounded `k`-significant-digit decimal of `n / d`, given
`P = ⌊log₁₀(n/d)⌋`: returns the digit value together with the decimal
exponent of its last digit, renormalizing when rounding carries into an
extra digit. -/
def sigRound (n d : ℕ) (P : ℤ) (k : ℕ) : ℕ × ℤ :=
  let t := P + 1 - (k : ℤ)
  let Dk := if 0 ≤ t then halfEvenPos n (d * 10 ^ t.toNat)
            else halfEvenPos (n * 10 ^ (-t).toNat) d
  if Dk = 10 ^ k then (10 ^ (k - 1), t + 1) else (Dk, t)

/-- The nearest double to the positive decimal `D · 10^t` (how `strtod`
reads a candidate back during the round-trip test). -/
def decValDbl (D : ℕ) (t : ℤ) : Dbl :=
  if D = 0 then .finite false 0 0
  else if 0 ≤ t then toDblPos (D * 10 ^ t.toNat) 1
  else toDblPos D (10 ^ (-t).toNat)

/-- The shortest-round-trip digit search of float `repr`: try the
correctly rounded `k`-digit decimal of the double `m · 2^e` (whose exact
value is `n / d`) for `k = 1, 2, …` until one reads back as the same
double; 17 digits always do. -/
def shortestLoop (n d : ℕ) (P : ℤ) (m : ℕ) (e : ℤ) : ℕ → ℕ → ℕ × ℤ
  | k, 0 => sigRound n d P k
  | k, f + 1 =>
      let c := sigRound n d P k
      if dblBEq (decValDbl c.1 c.2) (.finite false m e) then c
      else shortestLoop n d P m e (k + 1) f

/-- Fixed-notation formatting of significant digits `S` with leading
decimal exponent `P` (used when `-4 ≤ P < 16`): integral values get a
trailing `.0`, exactly as CPython's float repr does. -/
def fixedDigits (S : List Char) (P : ℤ) : List Char :=
  let c : ℤ := (S.length : ℤ)
  if c - 1 ≤ P then S ++ List.replicate (P - (c - 1)).toNat '0' ++ ['.', '0']
  else if 0 ≤ P then S.take (P + 1).toNat ++ ['.'] ++ S.drop (P + 1).toNat
  else ['0', '.'] ++ List.replicate (-P - 1).toNat '0' ++ S

/-- Scientific-notation formatting (`d.ddde±XX`, exponent printed with at
least two digits), as CPython's float repr uses outside the fixed
range. -/
def expDigits (S : List Char) (P : ℤ) : List Char :=
  let mant := match S with
    | [c] => [c]
    | c :: rest => c :: '.' :: rest
    | [] => ['0']
  let a := P.natAbs
  let es := natDigits a
  let es := if a < 10 then '0' :: es else es
  mant ++ ['e', if P < 0 then '-' else '+'] ++ es

/-- `repr` of the positive finite double `m · 2^e` (`m ≠ 0`): shortest
round-tripping digits, fixed notation for decimal exponents in
`[-4, 16)`, scientific otherwise. -/
def reprPosFinite (m : ℕ) (e : ℤ) : List Char :=
  let n := if 0 ≤ e then m * 2 ^ e.toNat else m
  let d := if 0 ≤ e then 1 else 2 ^ (-e).toNat
  let c := shortestLoop n d (flogB 10 n d) m e 1 16
  let p := stripZerosF 20 c
  let S := natDigits p.1
  let P : ℤ := p.2 + (S.length : ℤ) - 1
  if -4 ≤ P && P < 16 then fixedDigits S P else expDigits S P

/-- Python `str(x)` (= `repr(x)`) of a float: `nan`/`inf` print their
names, zeros keep their sign, and finite values print the shortest
decimal that reads back as the same double. -/
def reprDbl : Dbl → String
  | .nan => "nan"
  | .inf b => if b then "-inf" else "inf"
  | .finite b m e =>
      if m = 0 then (if b then "-0.0" else "0.0")
      else (if b then "-" else "") ++ String.mk (reprPosFinite m e)

/-- The nearest double to the unsigned decimal `n · 10^t` — how CPython's
`strtod` converts a parsed decimal literal (correctly rounded). -/
def toDblScaled10 (n : ℕ) (t : ℤ) : Dbl :=
  if n = 0 then .finite false 0 0
  else if 0 ≤ t then toDblPos (n * 10 ^ t.toNat) 1
  else toDblPos n (10 ^ (-t).toNat)

/-- The numeric value of a digit character. -/
def digitVal (c : Char) : ℕ := c.toNat - 48

/-- Consume a Python `digitpart` continuation: digits with single
underscores allowed between digits, returning the accumulated value, the
digit count, and the rest. -/
def dpGo (acc cnt : ℕ) : List Char → ℕ × ℕ × List Char
  | '_' :: c :: r =>
      if c.isDigit then dpGo (acc * 10 + digitVal c) (cnt + 1) r else (acc, cnt, '_' :: c :: r)
  | c :: r => if c.isDigit then dpGo (acc * 10 + digitVal c) (cnt + 1) r else (acc, cnt, c :: r)
  | [] => (acc, cnt, [])

/-- A Python `digitpart` (must begin with a digit). -/
def parseDigitPart : List Char → Option (ℕ × ℕ × List Char)
  | c :: r => if c.isDigit then some (dpGo (digitVal c) 1 r) else none
  | [] => none

/-- The exponent clause of a Python float literal: `e`/`E`, an optional
sign, and a digitpart. -/
def parseExp : List Char → Option (ℤ × List Char)
  | c :: r =>
      if c = 'e' || c = 'E' then
        match r with
        | '+' :: r2 => (parseDigitPart r2).map fun p => ((p.1 : ℤ), p.2.2)
        | '-' :: r2 => (parseDigitPart r2).map fun p => (-(p.1 : ℤ), p.2.2)
        | _ => (parseDigitPart r).map fun p => ((p.1 : ℤ), p.2.2)
      else none
  | [] => none

/-- Finish a float literal whose mantissa digits encode `n · 10^(-fcnt)`:
accept the end of input or an exponent clause consuming the rest. -/
def parseTail (n : ℕ) (fcnt : ℕ) (rest : List Char) : Option Dbl :=
  match rest with
  | [] => some (toDblScaled10 n (-(fcnt : ℤ)))
  | _ =>
      match parseExp rest with
      | some (ex, []) => some (toDblScaled10 n (ex - (fcnt : ℤ)))
      | _ => none

/-- An unsigned Python float literal: `digitpart [. [digitpart]] [exp]`
with at least one mantissa digit, converted to the nearest double. -/
def parseDecimal (cs : List Char) : Option Dbl :=
  let q : ℕ × ℕ × List Char := match parseDigitPart cs with
    | some p => p
    | none => (0, 0, cs)
  match q.2.2 with
  | '.' :: r2 =>
      let q2 : ℕ × ℕ × List Char := match parseDigitPart r2 with
        | some p => p
        | none => (0, 0, r2)
      if q.2.1 = 0 && q2.2.1 = 0 then none
      else parseTail (q.1 * 10 ^ q2.2.1 + q2.1) q2.2.1 q2.2.2
  | r1 => if q.2.1 = 0 then none else parseTail q.1 0 r1

/-- The unsigned body of `float(s)`: the case-insensitive `inf`,
`infinity` and `nan` tokens, or a decimal literal. -/
def parseMagnitude (cs : List Char) : Option Dbl :=
  let lcs := cs.map Char.toLower
  if lcs = ['i', 'n', 'f'] || lcs = ['i', 'n', 'f', 'i', 'n', 'i', 't', 'y'] then
    some (.inf false)
  else if lcs = ['n', 'a', 'n'] then some .nan
  else parseDecimal cs

/-- Python `float(s)` on a string: strip surrounding whitespace, then an
optional sign and the magnitude; `none` models the `ValueError`. -/
def pyFloatOfString (s : String) : Option Dbl :=
  match pyStrip s.data with
  | '+' :: r => parseMagnitude r
  | '-' :: r => (parseMagnitude r).map (dblWithSign true)
  | r => parseMagnitude r

/-- The double nearest to the rational `q` — `float()` of a parsed JSON
number: exact (the identity) when `q` is already the value of a double
or a small integer, correctly rounded otherwise (large integers). -/
def ratToDbl (q : ℚ) : Dbl :=
  if q.num = 0 then .finite false 0 0
  else dblWithSign (decide (q.num < 0)) (toDblPos q.num.natAbs q.den)

/-- The double written `0.3048` in `_prepare_render_context` (the feet →
meters factor; not exactly representable, so the nearest double). -/
def d0_3048 : Dbl := toDblPos 3048 10000

/-- Python `float(x)` on a decoded JSON value: numbers convert to their
double (ints of any size correctly rounded), booleans coerce, strings
parse; `none` models the `ValueError`/`TypeError` caught by
`_prepare_render_context`. -/
def pyFloat : Json → Option Dbl
  | .num q => some (ratToDbl q)
  | .bool b => some (if b then toDblPos 1 1 else .finite false 0 0)
  | .str s => pyFloatOfString s
  | _ => none

/-- The altitude branch of `_prepare_render_context`:
`'N/A'` when `context['alt']` is in `[None, '', '?']`, otherwise
`str(round(float(alt) * 0.3048, 1))` computed with binary64 semantics,
with `'Ungültig'` when `float()` raises. -/
def altMStr (alt : Json) : String :=
  if pyEq alt .null || pyEq alt (.str "") || pyEq alt (.str "?") then "N/A"
  else
    match pyFloat alt with
    | some x => reprDbl (round1D (fmul x d0_3048))
    | none => "Ungültig"

/-- `context['lat'] = safe_get('lat', '?')`. -/
def ctxLat (m : Msg) : Json := safeGet m "lat" (.str "?")

/-- `context['long'] = safe_get('long', '?')`. -/
def ctxLong (m : Msg) : Json := safeGet m "long" (.str "?")

/-- `context['alt'] = safe_get('alt')`. -/
def ctxAlt (m : Msg) : Json := safeGet m "alt" (.str "")

/-- `context['_alt_m']` for a message. -/
def altMOf (m : Msg) : String := altMStr (ctxAlt m)

/-- The OpenStreetMap URL built from the raw `lat`/`long` context values. -/
def mapLinkStr (la lo : Json) : String :=
  "https://www.openstreetmap.org/?mlat=" ++ jsonToStr la ++ "&mlon=" ++ jsonToStr lo ++
    "#map=15/" ++ jsonToStr la ++ "/" ++ jsonToStr lo

/-- `context['_map_link']`: the URL when both `lat` and `long` differ from
`'?'`, else `'N/A'`. -/
def mapLinkOf (m : Msg) : String :=
  if !pyEq (ctxLat m) (.str "?") && !pyEq (ctxLong m) (.str "?") then
    mapLinkStr (ctxLat m) (ctxLong m)
  else "N/A"

/-- One escaped context entry:
`context[k] = escape_markdown_v2(safe_get(k, d))`.  `safe_get` yields
either the (string) default or a truthy message value; on a truthy
non-string value `escape_markdown_v2`'s `text.replace` raises
`AttributeError`, modelled by the `Except` error. -/
def escField (m : Msg) (k : String) (d : String) : Except Unit Json :=
  match safeGet m k (.str d) with
  | .str s => .ok (.str (escapeMarkdownV2 s))
  | _ => .error ()

/-- A parsed segment of a Python format string: a literal character or a
named replacement field. -/
inductive Seg where
  | lit (c : Char) : Seg
  | field (name : String) : Seg

/-- How a `str.format_map` failure is classified by `_render_template`:
`caught` models the exceptions named in the `except (KeyError, ValueError,
TypeError)` clause; `uncaught` models other exceptions (e.g. the
`IndexError` raised by a positional field with no positional arguments),
which fall to the generic `except Exception` clause. -/
inductive FmtErr where
  | caught : FmtErr
  | uncaught : FmtErr

/-- Characters admitted in a modelled replacement-field name. -/
def isFieldChar (c : Char) : Bool := c.isAlphanum || c = '_'

mutual

/-- Parsing of a Python format string as consumed by `str.format_map`:
`\x7b\x7b` and `\x7d\x7d` are literal braces, `\x7bname\x7d` is a named
field, a bare `\x7d` or an unterminated field raises `ValueError`
(`caught`), an empty or all-digit field name is positional and raises
`IndexError` under `format_map` with no positional arguments
(`uncaught`).  Conversion specifiers, format specs and attribute/index
access inside a field — none of which the configured templates use — are
conservatively mapped to the `caught` error kind. -/
def parseTemplate : List Char → Except FmtErr (List Seg)
  | [] => .ok []
  | '\x7b' :: '\x7b' :: rest => (parseTemplate rest).map (fun segs => .lit '\x7b' :: segs)
  | '\x7b' :: rest => parseField rest []
  | '\x7d' :: '\x7d' :: rest => (parseTemplate rest).map (fun segs => .lit '\x7d' :: segs)
  | '\x7d' :: _ => .error .caught
  | c :: rest => (parseTemplate rest).map (fun segs => .lit c :: segs)

/-- Accumulates the characters of one replacement field up to the closing
brace (`acc` holds the field name reversed). -/
def parseField : List Char → List Char → Except FmtErr (List Seg)
  | [], _ => .error .caught
  | '\x7d' :: rest, acc =>
      if acc.isEmpty || acc.all Char.isDigit then .error .uncaught
      else if acc.all isFieldChar then
        (parseTemplate rest).map (fun segs => .field (String.mk acc.reverse) :: segs)
      else .error .caught
  | c :: rest, acc => parseField rest (c :: acc)

end

/-- `msg_type = message_dict.get('type', 'unknown')` in `_render_template`
(note: an explicit JSON `null` stays Python `None` here, it is not
replaced by the default). -/
def typeKeyOf (m : Msg) : Json := (mfind m "type").getD (.str "unknown")

/-- `self.templates.get(msg_type, self.templates.get('default'))` — the
type-specific template when one exists for the (string) type key, else
the `default` template; a non-string type key is never a dict key of the
string-keyed template map. -/
def templateFor (tps : List (String × String)) (m : Msg) : Option String :=
  match typeKeyOf m with
  | .str s =>
      match List.lookup s tps with
      | some tp => some tp
      | none => List.lookup "default" tps
  | _ => List.lookup "default" tps

/-- The outcome of the `requests.post` call in `send_text`: a response
with an HTTP status, a timeout, another `requests` transport error, or
any other exception. -/
inductive PostOutcome where
  | response (status : Nat) : PostOutcome
  | timeout : PostOutcome
  | requestError : PostOutcome
  | otherError : PostOutcome

/-- `TelegramForwarder.send_text` as a function of the call outcome:
`response.raise_for_status()` raises `HTTPError` exactly for client-error
(4xx) and server-error (5xx) statuses, i.e. 400–599 — a status outside
that range (including out-of-range statuses ≥ 600, which the HTTP layer
accepts on the status line) does not raise — so the method returns `True`
for any response whose status is not in 400–599, and `False` — after
logging — on timeout, on a 4xx/5xx status, on any other transport error,
or on any unexpected exception; every exception class is caught, so the
method never raises.  (The log calls accompanying each `False` branch are
not reified here.) -/
def sendText : PostOutcome → Bool
  | .response status => if 400 ≤ status ∧ status < 600 then false else true
  | .timeout => false
  | .requestError => false
  | .otherError => false

/-- The per-character effect of `escape_markdown_v2` after the backslash
pass and the replace passes for the characters in `C` have run: a
backslash doubles, a character already processed carries its escape, and
anything else is untouched. -/
def escAfter (C : List Char) (x : Char) : List Char :=
  if x = '\\' then ['\\', '\\'] else if x ∈ C then ['\\', x] else [x]

/-- Every element of the list that is a reserved markdown character is
directly preceded by a backslash, given that `prev` is the character
before the list. -/
def okAfter (prev : Char) : List Char → Prop
  | [] => True
  | c :: rest => (c ∈ escapeChars → prev = '\\') ∧ okAfter c rest

/-- Every reserved markdown character occurring in the list is directly
preceded by a backslash (in particular none occurs first). -/
def noBareReserved : List Char → Prop
  | [] => True
  | c :: rest => c ∉ escapeChars ∧ okAfter c rest

/-! ## Helper lemmas -/

theorem safeGet_of_mfind_falsy {m : Msg} {k : String} {v : Json} (d : Json)
    (h : mfind m k = some v) (hf : truthy v = false) : safeGet m k d = d := by
  simp [safeGet, h, hf]

theorem pyEq_str_refl (s : String) : pyEq (Json.str s) (Json.str s) = true := by
  simp [pyEq, jsonBEq]

/-! ## C9 — delivery client -/

/-- C9 (amended): `send_text` returns `True` exactly when the response
status lies outside `raise_for_status`'s error range 400–599 — which
includes, besides the 1xx–3xx statuses, any out-of-range status ≥ 600
such as 999 — and `False`, after logging, on timeout, on a 4xx/5xx
status, on any other transport error, and on any unexpected exception;
since every exception class is caught, the function is total and never
raises to its caller. -/
theorem c9_send_soft_failure (o : PostOutcome) :
    (sendText o = true ↔ ∃ s, o = PostOutcome.response s ∧ (s < 400 ∨ 600 ≤ s)) ∧
    sendText PostOutcome.timeout = false ∧
    (∀ s, 400 ≤ s → s < 600 → sendText (PostOutcome.response s) = false) ∧
    sendText PostOutcome.requestError = false ∧
    sendText PostOutcome.otherError = false := by
  refine ⟨?_, rfl, ?_, rfl, rfl⟩
  · constructor
    · intro h
      cases o with
      | response s =>
          by_cases hs : 400 ≤ s ∧ s < 600
          · simp [sendText, hs] at h
          · exact ⟨s, rfl, by omega⟩
      | timeout => simp [sendText] at h
      | requestError => simp [sendText] at h
      | otherError => simp [sendText] at h
    · rintro ⟨s, rfl, hs⟩
      have hns : ¬(400 ≤ s ∧ s < 600) := by omega
      simp [sendText, hns]
  · intro s h1 h2
    simp [sendText, h1, h2]

/-- Counterexample to C9 as stated: the status 999 is a non-success
response (`400 ≤ 999`), yet `raise_for_status` raises only for 400–599,
so `send_text` returns `True` for it instead of `False`. -/
theorem c9_send_soft_failure_counterexample :
    sendText (PostOutcome.response 999) = true ∧ 400 ≤ 999 := by
  exact ⟨rfl, by decide⟩

/-- Witness for C9 (amended) at concrete outcomes. -/
theorem c9_send_soft_failure_witness :
    sendText (PostOutcome.response 500) = false :=
  (c9_send_soft_failure (PostOutcome.response 500)).2.2.1 500 (by decide) (by decide)

/-! ## C10 — falsy lat/long/alt treated as absent -/

/-- C10: if `lat`, `long` or `alt` is present but has a falsy JSON value
(`0`, `""`, `false`, `null`), `safe_get`'s `or default` makes the render
context treat it as absent: `lat`/`long` become `"?"` (and `_map_link`
becomes `"N/A"`), and `alt` yields `_alt_m = "N/A"`. -/
theorem c10_falsy_treated_absent (m : Msg) (v : Json) (hv : truthy v = false) :
    (mfind m "lat" = some v → ctxLat m = Json.str "?" ∧ mapLinkOf m = "N/A") ∧
    (mfind m "long" = some v → ctxLong m = Json.str "?" ∧ mapLinkOf m = "N/A") ∧
    (mfind m "alt" = some v → altMOf m = "N/A") := by
  refine ⟨fun h => ?_, fun h => ?_, fun h => ?_⟩
  · have hlat : ctxLat m = Json.str "?" := safeGet_of_mfind_falsy _ h hv
    refine ⟨hlat, ?_⟩
    simp [mapLinkOf, hlat, pyEq_str_refl]
  · have hlong : ctxLong m = Json.str "?" := safeGet_of_mfind_falsy _ h hv
    refine ⟨hlong, ?_⟩
    simp [mapLinkOf, hlong, pyEq_str_refl]
  · have halt : ctxAlt m = Json.str "" := safeGet_of_mfind_falsy _ h hv
    simp [altMOf, halt, altMStr, pyEq_str_refl]

/-- Witness for C10: latitude 0 (a falsy number) yields no map link. -/
theorem c10_falsy_treated_absent_witness :
    ctxLat [("lat", Json.num 0)] = Json.str "?" ∧
    mapLinkOf [("lat", Json.num 0)] = "N/A" ∧
    altMOf [("alt", Json.num 0)] = "N/A" := by
  refine ⟨?_, ?_, ?_⟩
  · exact ((c10_falsy_treated_absent [("lat", Json.num 0)] (Json.num 0) (by decide)).1 rfl).1
  · exact ((c10_falsy_treated_absent [("lat", Json.num 0)] (Json.num 0) (by decide)).1 rfl).2
  · exact (c10_falsy_treated_absent [("alt", Json.num 0)] (Json.num 0) (by decide)).2.2 rfl

/-! ## C1 — forwarding rule matcher -/

/-- C1: the forwarding loop fires for exactly the first rule (in list
order) whose `type` and `dst` conditions both hold, evaluating no rule
after it (the trace contains rule-check events only for the rules up to
and including the match); if no rule matches, the loop is exhausted and
nothing is forwarded; a rule with no predicates matches every message. -/
theorem c1_matcher_first_match (R : List Rule) (t d : Json) (m : Msg) :
    ((∀ r ∈ R, ruleMatches r t d = false) →
      forwardLoop t d m R = R.map Event.logDebugRuleCheck ++ [Event.logDebugNoRule]) ∧
    (∀ (pre : List Rule) (r : Rule) (post : List Rule), R = pre ++ r :: post →
      (∀ r' ∈ pre, ruleMatches r' t d = false) → ruleMatches r t d = true →
      forwardLoop t d m R =
        (pre ++ [r]).map Event.logDebugRuleCheck ++
          [Event.logInfoRuleMatch r, Event.forward m]) ∧
    (∀ r : Rule, r.rtype = none → r.rdst = none → ruleMatches r t d = true) := by
  refine ⟨?_, ?_, ?_⟩
  · intro h
    induction R with
    | nil => rfl
    | cons r rest ih =>
        have hr : ruleMatches r t d = false := h r (List.mem_cons_self r rest)
        simp only [forwardLoop, hr, if_false, List.map_cons, List.cons_append]
        exact congrArg _ (ih fun r' hr' => h r' (List.mem_cons_of_mem r hr'))
  · intro pre r post hR hpre hr
    subst hR
    induction pre with
    | nil =>
        simp only [List.nil_append, forwardLoop, hr, if_true, List.map_cons,
          List.map_nil, List.cons_append, List.nil_append]
    | cons p pre' ih =>
        have hp : ruleMatches p t d = false := hpre p (List.mem_cons_self p pre')
        simp only [List.cons_append, forwardLoop, hp, if_false, List.map_cons]
        exact congrArg _ (ih fun r' hr' => hpre r' (List.mem_cons_of_mem p hr'))
  · intro r ht hd
    simp [ruleMatches, typeMatch, dstMatch, ht, hd]

/-- Witness for C1: a non-matching specific rule followed by a catch-all;
the second rule fires and both checks appear in the trace. -/
theorem c1_matcher_first_match_witness :
    forwardLoop (Json.str "b") Json.null [] [⟨some (Json.str "a"), none⟩, ⟨none, none⟩] =
      [Event.logDebugRuleCheck ⟨some (Json.str "a"), none⟩,
       Event.logDebugRuleCheck ⟨none, none⟩,
       Event.logInfoRuleMatch ⟨none, none⟩, Event.forward []] := by
  have h := (c1_matcher_first_match [⟨some (Json.str "a"), none⟩, ⟨none, none⟩]
      (Json.str "b") Json.null []).2.1 [⟨some (Json.str "a"), none⟩] ⟨none, none⟩ []
      rfl (by decide) (by decide)
  exact h

/-! ## C4 — markdown escaping -/

theorem backslashEsc_eq_escAfter_nil (l : List Char) :
    backslashEsc l = l.flatMap (escAfter []) := by
  unfold backslashEsc
  apply List.flatMap_congr
  intro x _
  simp [escAfter]

theorem replaceEsc_escAfter (c : Char) (C : List Char) (hc : c ≠ '\\') (hcC : c ∉ C)
    (l : List Char) :
    replaceEsc c (l.flatMap (escAfter C)) = l.flatMap (escAfter (c :: C)) := by
  induction l with
  | nil => rfl
  | cons x xs ih =>
      simp only [List.flatMap_cons]
      have hdist : replaceEsc c (escAfter C x ++ xs.flatMap (escAfter C)) =
          replaceEsc c (escAfter C x) ++ replaceEsc c (xs.flatMap (escAfter C)) := by
        simp [replaceEsc]
      rw [hdist, ih]
      congr 1
      have hcs : ¬('\\' = c) := fun h => hc h.symm
      by_cases hx : x = '\\'
      · subst hx
        simp [escAfter, replaceEsc, hcs]
      · by_cases hxC : x ∈ C
        · have hxc : x ≠ c := fun h => hcC (h ▸ hxC)
          simp [escAfter, hx, hxC, replaceEsc, hcs, hxc]
        · by_cases hxc : x = c
          · subst hxc
            simp [escAfter, hx, hxC, replaceEsc]
          · simp [escAfter, hx, hxC, hxc, replaceEsc]

theorem foldl_replaceEsc_escAfter (l : List Char) (todo : List Char) :
    ∀ (C : List Char), (∀ c ∈ todo, c ≠ '\\') → (∀ c ∈ todo, c ∉ C) → todo.Nodup →
      todo.foldl (fun acc c => replaceEsc c acc) (l.flatMap (escAfter C)) =
        l.flatMap (escAfter (todo.reverse ++ C)) := by
  induction todo with
  | nil => intro C _ _ _; rfl
  | cons c todo' ih =>
      intro C h1 h2 hnd
      have hstep := replaceEsc_escAfter c C (h1 c (List.mem_cons_self c todo'))
        (h2 c (List.mem_cons_self c todo')) l
      simp only [List.foldl_cons, hstep]
      have hrec := ih (c :: C)
        (fun c' hc' => h1 c' (List.mem_cons_of_mem c hc'))
        (fun c' hc' => by
          intro hmem
          rcases List.mem_cons.mp hmem with h | h
          · exact (List.nodup_cons.mp hnd).1 (h ▸ hc')
          · exact h2 c' (List.mem_cons_of_mem c hc') h)
        (List.nodup_cons.mp hnd).2
      rw [hrec]
      simp

theorem escapeMD_characterization (l : List Char) :
    escapeMD l = l.flatMap (escAfter escapeChars.reverse) := by
  unfold escapeMD
  rw [backslashEsc_eq_escAfter_nil,
    foldl_replaceEsc_escAfter l escapeChars [] (by decide) (by simp) (by decide)]
  simp

theorem okAfter_flatMap_escAfter (p : Char) (l : List Char) :
    okAfter p (l.flatMap (escAfter escapeChars.reverse)) := by
  induction l generalizing p with
  | nil => trivial
  | cons x xs ih =>
      simp only [List.flatMap_cons]
      by_cases hx : x = '\\'
      · subst hx
        simp only [escAfter, if_pos rfl, List.cons_append, List.nil_append]
        exact ⟨fun h => absurd h (by decide), fun _ => rfl, ih '\\'⟩
      · by_cases hxC : x ∈ escapeChars.reverse
        · simp only [escAfter, hx, if_false, if_pos hxC, List.cons_append, List.nil_append]
          exact ⟨fun h => absurd h (by decide), fun _ => rfl, ih x⟩
        · simp only [escAfter, hx, if_false, if_neg hxC, List.cons_append, List.nil_append]
          exact ⟨fun h => absurd (List.mem_reverse.mpr h) hxC, ih x⟩

theorem noBareReserved_flatMap_escAfter (l : List Char) :
    noBareReserved (l.flatMap (escAfter escapeChars.reverse)) := by
  cases l with
  | nil => trivial
  | cons x xs =>
      simp only [List.flatMap_cons]
      by_cases hx : x = '\\'
      · subst hx
        simp only [escAfter, if_pos rfl, List.cons_append, List.nil_append]
        exact ⟨by decide, fun _ => rfl, okAfter_flatMap_escAfter '\\' xs⟩
      · by_cases hxC : x ∈ escapeChars.reverse
        · simp only [escAfter, hx, if_false, if_pos hxC, List.cons_append, List.nil_append]
          exact ⟨by decide, fun _ => rfl, okAfter_flatMap_escAfter x xs⟩
        · simp only [escAfter, hx, if_false, if_neg hxC, List.cons_append, List.nil_append]
          exact ⟨fun h => absurd (List.mem_reverse.mpr h) hxC, okAfter_flatMap_escAfter x xs⟩

/-- C4: `escape_markdown_v2` first doubles every literal backslash and
then prefixes every reserved character with a single backslash — the
composite acts per character, and in the result every reserved character
is directly preceded by a backslash; the raw context entries `lat`,
`long` and `alt` take the (truthy) message value over without this
escaping. -/
theorem c4_escaping (s : List Char) (m : Msg) :
    escapeMD s = s.flatMap (fun c =>
      if c = '\\' then ['\\', '\\'] else if c ∈ escapeChars then ['\\', c] else [c]) ∧
    noBareReserved (escapeMD s) ∧
    (∀ v, mfind m "lat" = some v → truthy v = true → ctxLat m = v) ∧
    (∀ v, mfind m "long" = some v → truthy v = true → ctxLong m = v) ∧
    (∀ v, mfind m "alt" = some v → truthy v = true → ctxAlt m = v) := by
  refine ⟨?_, ?_, ?_, ?_, ?_⟩
  · rw [escapeMD_characterization]
    apply List.flatMap_congr
    intro x _
    simp [escAfter, List.mem_reverse]
  · rw [escapeMD_characterization]
    exact noBareReserved_flatMap_escAfter s
  · intro v h ht; simp [ctxLat, safeGet, h, ht]
  · intro v h ht; simp [ctxLong, safeGet, h, ht]
  · intro v h ht; simp [ctxAlt, safeGet, h, ht]

/-- Witness for C4 at a concrete string and message. -/
theorem c4_escaping_witness :
    escapeMD ['.', 'a'] = ['\\', '.', 'a'] ∧ ctxLat [("lat", Json.num 1)] = Json.num 1 := by
  have h := c4_escaping ['.', 'a'] [("lat", Json.num 1)]
  exact ⟨by rw [h.1]; decide, h.2.2.1 (Json.num 1) rfl (by decide)⟩

/-! ## C2 — persistence filter and store invocation -/

theorem forwardLoop_no_store (t d : Json) (m : Msg) (rules : List Rule) :
    (forwardLoop t d m rules).filter isStoreEvent = [] := by
  induction rules with
  | nil => rfl
  | cons r rest ih =>
      by_cases h : ruleMatches r t d
      · simp [forwardLoop, h, isStoreEvent]
      · simp [forwardLoop, h, isStoreEvent, ih]

theorem handleObj_fwd_no_store (t d : Json) (m : Msg) (hasF : Bool) (rules : List Rule) :
    (if hasF && !rules.isEmpty then forwardLoop t d m rules else []).filter
      isStoreEvent = [] := by
  by_cases h : hasF && !rules.isEmpty
  · simp [h, forwardLoop_no_store]
  · simp [h]

/-- C2 (amended): for a message that parsed as a JSON object,
`save_message` is invoked exactly once — with `msg_id` defaulting to
`None` when absent, the comma-normalized source, and `dst` normalized to
`None` when absent or falsy — when the message's `type` value is in
`store_types` AND its `src` is absent, falsy, or a string; it is never
invoked when the type is not in `store_types`.  (When the type is stored
but `src` is a truthy non-string, `src.split` raises `AttributeError`
and no store happens — see the counterexample.) -/
theorem c2_store_exactly_once (text : String) (m : Msg) (hasF : Bool)
    (sts : List String) (rules : List Rule) :
    (msgTypeIn (dget m "type") sts = true →
      (truthy (dget m "src") = false ∨ (∃ s, dget m "src" = Json.str s)) →
      (handlePacket (.jsonVal text (.obj m)) hasF sts rules).filter isStoreEvent =
        [Event.store (dget m "msg_id") (cleanedSrcOf m) (destOf m) (dget m "type") text]) ∧
    (msgTypeIn (dget m "type") sts = false →
      (handlePacket (.jsonVal text (.obj m)) hasF sts rules).filter isStoreEvent = []) ∧
    (mfind m "msg_id" = none → dget m "msg_id" = Json.null) ∧
    (mfind m "dst" = none → destOf m = Json.null) ∧
    (dget m "dst" = Json.str "" → destOf m = Json.null) := by
  refine ⟨?_, ?_, ?_, ?_, ?_⟩
  · intro hty hsrc
    show (handleObj text m hasF sts rules).filter isStoreEvent = _
    by_cases ht : truthy (dget m "src")
    · rcases hsrc with hf | ⟨s, hs⟩
      · exact absurd ht (by simp [hf])
      · simp only [handleObj, hty, if_true, ht, hs]
        simp [isStoreEvent, handleObj_fwd_no_store]
    · simp only [handleObj, hty, if_true, ht, Bool.false_eq_true, if_false]
      simp [isStoreEvent, handleObj_fwd_no_store]
  · intro hty
    show (handleObj text m hasF sts rules).filter isStoreEvent = _
    simp only [handleObj, hty, Bool.false_eq_true, if_false]
    simp [isStoreEvent, handleObj_fwd_no_store]
  · intro h; simp [dget, h]
  · intro h; simp [destOf, dget, h, truthy]
  · intro h; simp [destOf, h, truthy]

/-- Counterexample to C2 as stated: the message
`\x7b"type": "msg", "src": 5\x7d` has type `msg ∈ store_types`, yet the
truthy non-string `src` makes `source_raw.split(',')` raise
`AttributeError` before `save_message` is reached, so the store is never
invoked for it. -/
theorem c2_store_exactly_once_counterexample :
    handlePacket (.jsonVal "t" (.obj [("type", Json.str "msg"), ("src", Json.num 5)]))
        false ["msg"] [] = [Event.logReceived, Event.logErrorUnexpected] ∧
    (handlePacket (.jsonVal "t" (.obj [("type", Json.str "msg"), ("src", Json.num 5)]))
        false ["msg"] []).filter isStoreEvent = [] := by
  exact ⟨rfl, rfl⟩

/-- Witness for C2 (amended) at a concrete stored message. -/
theorem c2_store_exactly_once_witness :
    (handlePacket (.jsonVal "t" (.obj [("type", Json.str "msg")])) false ["msg"] []).filter
      isStoreEvent = [Event.store Json.null Json.null Json.null (Json.str "msg") "t"] := by
  exact (c2_store_exactly_once "t" [("type", Json.str "msg")] false ["msg"] []).1
    (by decide) (Or.inl rfl)

/-! ## C5 — src normalization -/

/-- C5 (amended): the comma-split-and-trim normalization of `src` is
applied only on the persistence path (`cleaned_source` in
`_handle_packet`); the render context's `src` entry is the markdown
escaping of the *raw* `src` value.  In the spec's scenario the store
receives source `"A-1"`, the forwarding rule fires, and the context entry
is the escaped raw value `"A\\-1,REPEATER"`. -/
theorem c5_src_normalization (m : Msg) (s : String)
    (hs : mfind m "src" = some (Json.str s)) (ht : truthy (Json.str s) = true) :
    cleanedSrcOf m = Json.str (cleanSrc s) ∧
    escField m "src" "" = Except.ok (Json.str (escapeMarkdownV2 s)) ∧
    cleanSrc "A-1,REPEATER" = "A-1" ∧
    escapeMarkdownV2 "A-1,REPEATER" = "A\\-1,REPEATER" ∧
    (handlePacket (.jsonVal "t" (.obj [("type", Json.str "msg"),
        ("src", Json.str "A-1,REPEATER"), ("dst", Json.str "B"), ("msg", Json.str "hi")]))
        true ["msg"] [⟨some (Json.str "msg"), none⟩]).filter isStoreEvent =
      [Event.store Json.null (Json.str "A-1") (Json.str "B") (Json.str "msg") "t"] ∧
    (handlePacket (.jsonVal "t" (.obj [("type", Json.str "msg"),
        ("src", Json.str "A-1,REPEATER"), ("dst", Json.str "B"), ("msg", Json.str "hi")]))
        true ["msg"] [⟨some (Json.str "msg"), none⟩]).filter isForwardEvent =
      [Event.forward [("type", Json.str "msg"), ("src", Json.str "A-1,REPEATER"),
        ("dst", Json.str "B"), ("msg", Json.str "hi")]] := by
  refine ⟨?_, ?_, by decide, by decide, by rfl, by rfl⟩
  · simp [cleanedSrcOf, dget, hs, ht]
  · simp [escField, safeGet, hs, ht]

/-- Counterexample to C5 as stated: for the scenario message the render
context's `src` entry is the escaped *raw* value `"A\\-1,REPEATER"`, not
the escaped normalized value `"A\\-1"` — `_prepare_render_context` never
applies the comma-split. -/
theorem c5_src_normalization_counterexample :
    escField [("type", Json.str "msg"), ("src", Json.str "A-1,REPEATER"),
        ("dst", Json.str "B"), ("msg", Json.str "hi")] "src" "" =
      Except.ok (Json.str "A\\-1,REPEATER") ∧
    Json.str "A\\-1,REPEATER" ≠ Json.str "A\\-1" := by
  refine ⟨by rfl, fun h => ?_⟩
  injection h with h'
  exact absurd h' (by decide)

/-- Witness for C5 (amended) at the scenario message. -/
theorem c5_src_normalization_witness :
    cleanedSrcOf [("type", Json.str "msg"), ("src", Json.str "A-1,REPEATER"),
        ("dst", Json.str "B"), ("msg", Json.str "hi")] = Json.str "A-1" := by
  exact (c5_src_normalization [("type", Json.str "msg"), ("src", Json.str "A-1,REPEATER"),
    ("dst", Json.str "B"), ("msg", Json.str "hi")] "A-1,REPEATER" rfl (by decide)).1.trans
    (congrArg Json.str (by decide))

/-! ## C6 — the "unknown" type default -/

/-- C6 (amended): the `"unknown"` default for a missing `type` key is
applied only in the forwarder — template selection and the render
context's `type` entry use `get('type', 'unknown')` — while the
persistence filter and the rule matcher in `_handle_packet` use the plain
`get('type')` (Python `None` for a missing key): a message without `type`
is never stored whatever `store_types` contains, and never matches a rule
whose `type` predicate is a string. -/
theorem c6_unknown_default (m : Msg) (h : mfind m "type" = none)
    (sts : List String) (tps : List (String × String)) :
    msgTypeIn (dget m "type") sts = false ∧
    (∀ s : String, typeMatch ⟨some (Json.str s), none⟩ (dget m "type") = false) ∧
    typeKeyOf m = Json.str "unknown" ∧
    templateFor tps m = (match List.lookup "unknown" tps with
      | some tp => some tp
      | none => List.lookup "default" tps) ∧
    escField m "type" "unknown" = Except.ok (Json.str "unknown") := by
  have hd : dget m "type" = Json.null := by simp [dget, h]
  have hk : typeKeyOf m = Json.str "unknown" := by simp [typeKeyOf, h]
  have h1 : msgTypeIn (dget m "type") sts = false := by
    rw [hd]
    simp [msgTypeIn, pyEq, jsonBEq]
  have h2 : ∀ s : String, typeMatch ⟨some (Json.str s), none⟩ (dget m "type") = false := by
    intro s
    rw [hd]
    simp [typeMatch, pyEq, jsonBEq]
  have h4 : templateFor tps m = (match List.lookup "unknown" tps with
      | some tp => some tp
      | none => List.lookup "default" tps) := by
    simp [templateFor, hk]
  have h5 : escField m "type" "unknown" = Except.ok (Json.str "unknown") := by
    have he : escapeMarkdownV2 "unknown" = "unknown" := by decide
    simp [escField, safeGet, h, he, truthy]
  exact ⟨h1, h2, hk, h4, h5⟩

/-- Counterexample to C6 as stated: a message without `type`, store types
`["unknown"]` and the rule `\x7b"type": "unknown"\x7d` — if the
persistence filter and rule matcher operated on the normalized
`"unknown"` value, the message would be stored and forwarded; in fact it
is neither (its `None` type matches nothing), while template selection
does use `"unknown"`. -/
theorem c6_unknown_default_counterexample :
    handlePacket (.jsonVal "t" (.obj [("dst", Json.str "X")])) true ["unknown"]
        [⟨some (Json.str "unknown"), none⟩] =
      [Event.logReceived, Event.logDebugNotStored,
       Event.logDebugRuleCheck ⟨some (Json.str "unknown"), none⟩, Event.logDebugNoRule] ∧
    templateFor [("unknown", "U"), ("default", "D")] [("dst", Json.str "X")] = some "U" := by
  exact ⟨rfl, rfl⟩

/-- Witness for C6 (amended) at a concrete message without `type`. -/
theorem c6_unknown_default_witness :
    templateFor [("unknown", "U"), ("default", "D")] [("dst", Json.str "B")] = some "U" ∧
    msgTypeIn (dget [("dst", Json.str "B")] "type") ["unknown"] = false := by
  have h := c6_unknown_default [("dst", Json.str "B")] rfl ["unknown"]
    [("unknown", "U"), ("default", "D")]
  exact ⟨h.2.2.2.1, h.1⟩

/-! ## C7 — malformed payload handling -/

/-- C7 (amended): a payload that decodes as UTF-8 but fails JSON parsing
is dropped with a warning-level log of the parse error and a debug-level
log carrying the raw text; a payload that parses to a JSON value that is
not an object is dropped through the generic error handler (error-level
log, no warning).  In both cases the store and the forwarder are never
invoked and the loop continues with the next packet. -/
theorem c7_bad_payload (text : String) (v : Json) (hasF : Bool)
    (sts : List String) (rules : List Rule) (ps : List Packet) :
    handlePacket (.notJson text) hasF sts rules =
      [Event.logWarnJsonParse, Event.logDebugRawText text] ∧
    ((∀ fields, v ≠ Json.obj fields) →
      handlePacket (.jsonVal text v) hasF sts rules =
        [Event.logReceived, Event.logErrorUnexpected]) ∧
    (handlePacket (.notJson text) hasF sts rules).all
      (fun e => !isStoreEvent e && !isForwardEvent e) = true ∧
    runLoop (Packet.notJson text :: ps) hasF sts rules =
      handlePacket (Packet.notJson text) hasF sts rules ++
        runLoop ps hasF sts rules := by
    refine ⟨rfl, ?_, by rfl, by simp [runLoop]⟩
    intro h
    cases v with
    | obj fields => exact absurd rfl (h fields)
    | null => rfl
    | bool b => rfl
    | num q => rfl
    | str s => rfl
    | arr xs => rfl

/-- Counterexample to C7 as stated: the payload `"5"` is valid UTF-8 and
valid JSON but not a JSON object; `json.loads` succeeds, so no
`JSONDecodeError` warning is produced — instead `message_dict.get`
raises `AttributeError` and the generic handler logs at error level. -/
theorem c7_bad_payload_counterexample :
    handlePacket (.jsonVal "5" (Json.num 5)) true ["msg"] [⟨none, none⟩] =
      [Event.logReceived, Event.logErrorUnexpected] ∧
    (handlePacket (.jsonVal "5" (Json.num 5)) true ["msg"] [⟨none, none⟩]).all
      (fun e => !isWarningEvent e) = true := by
  exact ⟨rfl, rfl⟩

/-- Witness for C7 (amended) at a concrete non-object payload. -/
theorem c7_bad_payload_witness :
    handlePacket (.jsonVal "5" (Json.num 5)) false [] [] =
      [Event.logReceived, Event.logErrorUnexpected] := by
  exact (c7_bad_payload "5" (Json.num 5) false [] [] []).2.1
    (fun fields hf => Json.noConfusion hf)

/-! ## C8 — altitude conversion -/

